import Mathlib

/-!
Verification of the student-analytics module: the adoption-inference engine
(`AdoptionTracker.ts`) and the profile aggregator (`StudentProfiler` in
`StudentLogPersister.ts`, duplicated by `scripts/analyze-student-log.ts`).

The TypeScript data model is embedded shallowly: string-enum unions become
inductives, `Map<string, T>` becomes an association list with JavaScript `Map`
semantics (`jmGet`/`jmSet`/`jmDelete`), JavaScript numbers become `ℝ` in the
profiler (its arithmetic uses `Math.exp`) and `Nat` where the code only counts,
and `Date.now()` becomes an explicit `now : Nat` argument.  The profile field
`generatedAt` (a wall-clock timestamp) is omitted from the embedded
`StudentProfile`; every claim about profiles excludes it.
-/

/-- Task categories, from `types.ts` (`TaskCategory`). -/
inductive TaskCategory where
  | algorithm
  | debugging
  | explanation
  | language_request
  | code_generation
  | refactoring
  | testing
  | other
deriving DecidableEq, Fintype

/-- Programming-language hints, from `types.ts` (`LanguageHint`). -/
inductive LanguageHint where
  | cpp
  | python
  | java
  | javascript
  | typescript
  | c
  | unknown
deriving DecidableEq

/-- Log event kinds, from `types.ts` (`LogEventType`). -/
inductive LogEventType where
  | task_start
  | turn_message
  | code_edit
  | file_save
  | adoption_infer
deriving DecidableEq

/-- Message roles, from `types.ts` (`MessageRole`). -/
inductive MessageRole where
  | user
  | assistant
  | system
deriving DecidableEq

/-- AI suggestion kinds, from `types.ts` (`SuggestionType`). -/
inductive SuggestionType where
  | code_generation
  | code_edit
  | explanation
  | question
  | completion
  | command
  | mixed
  | other
deriving DecidableEq

/-- Adoption verdicts, from `types.ts` (`AdoptionStatus`). -/
inductive AdoptionStatus where
  | adopted
  | rejected
  | continued
  | unknown
deriving DecidableEq

/-- One log record, from `types.ts` (`StudentInteractionLog`).  Fields that the
JSON reader may leave absent (the offline script tolerates records missing any
optional field) are `Option`-valued; `l.category || "unknown"` style defaults in
the source are modelled by matching on the `Option`. -/
structure StudentInteractionLog where
  ts : String
  taskId : String
  eventType : LogEventType
  role : Option MessageRole
  category : Option TaskCategory
  contentLength : Nat
  hasCode : Bool
  languageHint : Option LanguageHint
  imageCount : Nat
  fileCount : Nat
  turnIndex : Option Nat
  suggestionType : Option SuggestionType
  toolsUsed : Option (List String)
  filePath : Option String
  changeDelta : Option Int
  adoptionStatus : Option AdoptionStatus
deriving DecidableEq

/-- Learning-style archetypes, from `types.ts` (`LearningStyle`). -/
inductive LearningStyle where
  | Exploratory
  | Dependent
  | Optimizer
  | Debugger
  | Balanced
deriving DecidableEq

/-! ### JavaScript `Map` model

A `Map<string, T>` is embedded as an association list.  `jmGet` returns the
first binding of a key, `jmSet` replaces the binding of an existing key in
place and otherwise appends (JavaScript `Map.set` keeps insertion order), and
`jmDelete` removes the binding of a key. -/

/-- `Map.get`: the value bound to `k`, if any. -/
def jmGet {α : Type} (m : List (String × α)) (k : String) : Option α :=
  (m.find? (fun e => e.1 == k)).map (fun e => e.2)

/-- `Map.set`: update the binding of `k` in place if present, else append. -/
def jmSet {α : Type} (m : List (String × α)) (k : String) (v : α) : List (String × α) :=
  if (m.find? (fun e => e.1 == k)).isSome then
    m.map (fun e => if e.1 == k then (k, v) else e)
  else
    m ++ [(k, v)]

/-- `Map.delete`: drop the binding of `k`. -/
def jmDelete {α : Type} (m : List (String × α)) (k : String) : List (String × α) :=
  m.filter (fun e => !(e.1 == k))

/-! ### AdoptionTracker (`AdoptionTracker.ts`) -/

/-- Cached state of one not-yet-judged assistant turn
(`PendingAssistantTurn` in `AdoptionTracker.ts`). -/
structure PendingAssistantTurn where
  ts : String
  taskId : String
  turnIndex : Nat
  suggestionType : SuggestionType
  hasCode : Bool
  hasCodeEdit : Bool
  hasFileSave : Bool
  createdAt : Nat
deriving DecidableEq

/-- `ADOPTION_TIMEOUT_MS = 60_000`. -/
def ADOPTION_TIMEOUT_MS : Nat := 60000

/-- The tracker state: its `pendingTurns` map. -/
structure AdoptionTracker where
  pendingTurns : List (String × PendingAssistantTurn)
deriving DecidableEq

/-- `inferAdoption`: the message-arrival cascade of `AdoptionTracker.ts`
(lines 129-152). -/
def inferAdoption (pending : PendingAssistantTurn) (isSameTopic : Bool) : AdoptionStatus :=
  if pending.hasCode && (pending.hasCodeEdit || pending.hasFileSave) then
    AdoptionStatus.adopted
  else if pending.suggestionType == SuggestionType.completion then
    AdoptionStatus.adopted
  else if isSameTopic then
    AdoptionStatus.continued
  else if !pending.hasCodeEdit && !pending.hasFileSave then
    AdoptionStatus.rejected
  else
    AdoptionStatus.adopted

/-- `inferAdoptionByBehavior`: the behavior-only rule of `AdoptionTracker.ts`
(lines 157-171), with `Date.now()` passed explicitly.  Both the timeout branch
and the fall-through branch return `unknown`, exactly as in the source. -/
def inferAdoptionByBehavior (pending : PendingAssistantTurn) (now : Nat) : AdoptionStatus :=
  let elapsed := now - pending.createdAt
  if pending.hasCodeEdit || pending.hasFileSave then
    AdoptionStatus.adopted
  else if elapsed > ADOPTION_TIMEOUT_MS then
    AdoptionStatus.unknown
  else
    AdoptionStatus.unknown

/-- `finalizeIfPending(taskId)`: apply the behavior-only rule to the pending
turn, delete it, and return the verdict; `unknown` if none is pending. -/
def finalizeIfPending (t : AdoptionTracker) (taskId : String) (now : Nat) :
    AdoptionStatus × AdoptionTracker :=
  match jmGet t.pendingTurns taskId with
  | none => (AdoptionStatus.unknown, t)
  | some pending =>
      (inferAdoptionByBehavior pending now, ⟨jmDelete t.pendingTurns taskId⟩)

/-- `registerAssistantTurn`: finalize any prior pending turn for the task,
then install a fresh pending turn with both behavior flags false and
`createdAt = Date.now()`. -/
def registerAssistantTurn (t : AdoptionTracker) (taskId : String) (turnIndex : Nat)
    (suggestionType : SuggestionType) (hasCode : Bool) (ts : String) (now : Nat) :
    AdoptionTracker :=
  let t1 := (finalizeIfPending t taskId now).2
  ⟨jmSet t1.pendingTurns taskId
    ⟨ts, taskId, turnIndex, suggestionType, hasCode, false, false, now⟩⟩

/-- `onCodeEdit(taskId)`: set the pending turn's edit flag, if one exists. -/
def onCodeEdit (t : AdoptionTracker) (taskId : String) : AdoptionTracker :=
  match jmGet t.pendingTurns taskId with
  | none => t
  | some pending =>
      ⟨jmSet t.pendingTurns taskId { pending with hasCodeEdit := true }⟩

/-- `onFileSave(taskId)`: set the pending turn's save flag, if one exists. -/
def onFileSave (t : AdoptionTracker) (taskId : String) : AdoptionTracker :=
  match jmGet t.pendingTurns taskId with
  | none => t
  | some pending =>
      ⟨jmSet t.pendingTurns taskId { pending with hasFileSave := true }⟩

/-- `onUserMessage(taskId, isSameTopic)`: apply the message-arrival rule to the
pending turn, delete it, and return the verdict; `unknown` if none pending. -/
def onUserMessage (t : AdoptionTracker) (taskId : String) (isSameTopic : Bool) :
    AdoptionStatus × AdoptionTracker :=
  match jmGet t.pendingTurns taskId with
  | none => (AdoptionStatus.unknown, t)
  | some pending =>
      (inferAdoption pending isSameTopic, ⟨jmDelete t.pendingTurns taskId⟩)

/-- One call into the tracker, used to reason about arbitrary call sequences. -/
inductive TrackerOp where
  | register (taskId : String) (turnIndex : Nat) (suggestionType : SuggestionType)
      (hasCode : Bool) (ts : String) (now : Nat)
  | codeEdit (taskId : String)
  | fileSave (taskId : String)
  | userMessage (taskId : String) (isSameTopic : Bool)
  | finalize (taskId : String) (now : Nat)

/-- Apply one tracker call (verdicts discarded, as callers may do). -/
def applyOp (t : AdoptionTracker) : TrackerOp → AdoptionTracker
  | TrackerOp.register tid idx sugg hc ts now => registerAssistantTurn t tid idx sugg hc ts now
  | TrackerOp.codeEdit tid => onCodeEdit t tid
  | TrackerOp.fileSave tid => onFileSave t tid
  | TrackerOp.userMessage tid same => (onUserMessage t tid same).2
  | TrackerOp.finalize tid now => (finalizeIfPending t tid now).2

/-- Run a call sequence from a freshly constructed tracker (empty map). -/
def runOps (ops : List TrackerOp) : AdoptionTracker :=
  ops.foldl applyOp ⟨[]⟩

/-- The message-arrival rule exactly as the specification states it, in strict
priority order with first match winning. -/
def messageArrivalRule (hadCode : Bool) (kind : SuggestionType)
    (editFlag saveFlag : Bool) (isSameTopic : Bool) : AdoptionStatus :=
  if hadCode && (editFlag || saveFlag) then AdoptionStatus.adopted
  else if kind == SuggestionType.completion then AdoptionStatus.adopted
  else if isSameTopic then AdoptionStatus.continued
  else if !editFlag && !saveFlag then AdoptionStatus.rejected
  else AdoptionStatus.adopted

/-- A concrete pending turn used by witnesses. -/
def sampleTurn : PendingAssistantTurn :=
  ⟨"2024", "t1", 0, SuggestionType.explanation, false, false, false, 0⟩

/-- A concrete tracker state, with `sampleTurn` pending for task `t1`,
used by witnesses. -/
def sampleTracker : AdoptionTracker :=
  ⟨[("t1", sampleTurn)]⟩


/-! ### StudentProfiler (`StudentProfiler` in `StudentLogPersister.ts`)

JavaScript numbers are embedded as `ℝ` (the style inference uses `Math.exp`).
All counting is done on `Nat` and cast where the code divides. -/

/-- `ALL_CATEGORIES` from `StudentLogPersister.ts`. -/
def ALL_CATEGORIES : List TaskCategory :=
  [TaskCategory.algorithm, TaskCategory.debugging, TaskCategory.explanation,
   TaskCategory.language_request, TaskCategory.code_generation, TaskCategory.refactoring,
   TaskCategory.testing, TaskCategory.other]

/-- Conversational events: `task_start` or `turn_message`. -/
def conversationLogsOf (logs : List StudentInteractionLog) : List StudentInteractionLog :=
  logs.filter (fun l =>
    l.eventType == LogEventType.task_start || l.eventType == LogEventType.turn_message)

/-- Conversational events with role `user`. -/
def userTurnsOf (logs : List StudentInteractionLog) : List StudentInteractionLog :=
  (conversationLogsOf logs).filter (fun l => l.role == some MessageRole.user)

/-- Conversational events with role `assistant`. -/
def assistantTurnsOf (logs : List StudentInteractionLog) : List StudentInteractionLog :=
  (conversationLogsOf logs).filter (fun l => l.role == some MessageRole.assistant)

/-- `code_edit` events. -/
def codeEditsOf (logs : List StudentInteractionLog) : List StudentInteractionLog :=
  logs.filter (fun l => l.eventType == LogEventType.code_edit)

/-- `adoption_infer` events. -/
def adoptionLogsOf (logs : List StudentInteractionLog) : List StudentInteractionLog :=
  logs.filter (fun l => l.eventType == LogEventType.adoption_infer)

/-- The set of distinct task ids over the whole log. -/
def uniqueTaskIdsOf (logs : List StudentInteractionLog) : Finset String :=
  (logs.map (fun l => l.taskId)).toFinset

/-- Adoption events carrying a determined (non-`unknown`) verdict. -/
def determinedOf (adoptionLogs : List StudentInteractionLog) : List StudentInteractionLog :=
  adoptionLogs.filter (fun l =>
    l.adoptionStatus.isSome && !(l.adoptionStatus == some AdoptionStatus.unknown))

/-- Task ids of assistant turns that contained code. -/
def tasksWithAiCodeOf (assistantTurns : List StudentInteractionLog) : Finset String :=
  ((assistantTurns.filter (fun l => l.hasCode)).map (fun l => l.taskId)).toFinset

/-- Categories that actually occur among conversational events
(`filter(Boolean)` over possibly-absent categories). -/
def usedCategoriesOf (conversationLogs : List StudentInteractionLog) : Finset TaskCategory :=
  (conversationLogs.filterMap (fun l => l.category)).toFinset

/-- First-occurrence order of the distinct category keys, modelling the
insertion order of the frequency record built by `calcDominantCategory`. -/
def dedupKeys {α : Type} [DecidableEq α] (seen : List α) : List α → List α
  | [] => []
  | x :: xs => if x ∈ seen then dedupKeys seen xs else x :: dedupKeys (x :: seen) xs

/-- JavaScript default ascending string sort, used on timestamps. -/
def sortAsc (l : List String) : List String :=
  List.insertionSort (fun a b => a ≤ b) l

noncomputable instance : DecidableRel (fun a b : ℝ => a ≥ b) :=
  fun a b => Real.decidableLE b a

/-- Descending numeric sort, modelling `sort((a, b) => b - a)`. -/
noncomputable def sortDesc (l : List ℝ) : List ℝ :=
  List.insertionSort (fun a b : ℝ => a ≥ b) l

/-- `sigmoid(x, center, steepness)` from `StudentLogPersister.ts`. -/
noncomputable def sigmoid (x center steepness : ℝ) : ℝ :=
  1 / (1 + Real.exp (-steepness * (x - center)))

/-- `midness(x)` from `StudentLogPersister.ts`. -/
noncomputable def midness (x : ℝ) : ℝ :=
  1 - 2 * |x - 0.5|

/-- `parseFloat(x.toFixed(3))`: rounding to three decimal places. -/
noncomputable def round3 (x : ℝ) : ℝ :=
  ((⌊x * 1000 + (1 : ℝ) / 2⌋ : ℤ) : ℝ) / 1000

/-- `calcAiDependency`: `assistantCount / (userCount + assistantCount)`, `0`
when the sum is `0`. -/
noncomputable def calcAiDependency (userCount assistantCount : Nat) : ℝ :=
  let total := userCount + assistantCount
  if 0 < total then (assistantCount : ℝ) / (total : ℝ) else 0

/-- `calcCodeEditRatio`: `min(codeEditCount / assistantTurnsWithCode, 1)`, `0`
when no assistant turn has code. -/
noncomputable def calcCodeEditRatio (codeEditCount : Nat)
    (assistantTurns : List StudentInteractionLog) : ℝ :=
  let assistantWithCode := (assistantTurns.filter (fun l => l.hasCode)).length
  if assistantWithCode = 0 then 0
  else min ((codeEditCount : ℝ) / (assistantWithCode : ℝ)) 1

/-- `calcAdoptionRate`: `adopted / determined`, `0` with no determined verdict. -/
noncomputable def calcAdoptionRate (adoptionLogs : List StudentInteractionLog) : ℝ :=
  let determined := determinedOf adoptionLogs
  if determined.length = 0 then 0
  else
    ((determined.filter (fun l => l.adoptionStatus == some AdoptionStatus.adopted)).length : ℝ) /
      (determined.length : ℝ)

/-- `calcSelfModificationRate`: edited-and-AI-coded tasks over AI-coded tasks,
`0` when no task has AI code.  (The source's extra `uniqueTaskIds` parameter is
unused there and dropped here.) -/
noncomputable def calcSelfModificationRate (codeEdits assistantTurns : List StudentInteractionLog) :
    ℝ :=
  let tasksWithAiCode := tasksWithAiCodeOf assistantTurns
  if tasksWithAiCode.card = 0 then 0
  else
    let tasksWithEdit := (codeEdits.map (fun l => l.taskId)).toFinset
    let overlap := (tasksWithEdit ∩ tasksWithAiCode).card
    (overlap : ℝ) / (tasksWithAiCode.card : ℝ)

/-- `calcDebuggingFrequency`: debugging-category share of conversational events. -/
noncomputable def calcDebuggingFrequency (conversationLogs : List StudentInteractionLog) : ℝ :=
  if conversationLogs.length = 0 then 0
  else
    ((conversationLogs.filter (fun l => l.category == some TaskCategory.debugging)).length : ℝ) /
      (conversationLogs.length : ℝ)

/-- `calcExplorationBreadth`: distinct categories used over all 8 categories. -/
noncomputable def calcExplorationBreadth (conversationLogs : List StudentInteractionLog) : ℝ :=
  ((usedCategoriesOf conversationLogs).card : ℝ) / (ALL_CATEGORIES.length : ℝ)

/-- `calcDominantCategory`: the first-encountered category key of maximal
frequency, `none` (the source's string `unknown`) for an empty iteration. -/
def calcDominantCategory (conversationLogs : List StudentInteractionLog) :
    Option TaskCategory :=
  let ks := conversationLogs.map (fun l => l.category)
  let keysInOrder := dedupKeys [] ks
  (keysInOrder.foldl
    (fun best k => if ks.count k > best.2 then (k, ks.count k) else best)
    ((none : Option TaskCategory), 0)).1

/-- `calcAvgTurnsPerTask`: sum over tasks of `max turnIndex + 1`, divided by the
total task count; `0` when there is no task. -/
noncomputable def calcAvgTurnsPerTask (conversationLogs : List StudentInteractionLog)
    (totalTasks : Nat) : ℝ :=
  if totalTasks = 0 then 0
  else
    let taskTurnMax : List (String × Nat) := conversationLogs.foldl
      (fun m l => jmSet m l.taskId (max ((jmGet m l.taskId).getD 0) (l.turnIndex.getD 0 + 1))) []
    let totalTurns : Nat := (taskTurnMax.map (fun e => e.2)).foldl (fun s v => s + v) 0
    (totalTurns : ℝ) / (totalTasks : ℝ)

/-- The metric record handed to `inferLearningStyle`. -/
structure StyleMetrics where
  aiDependencyScore : ℝ
  codeEditRatio : ℝ
  adoptionRate : ℝ
  selfModificationRate : ℝ
  debuggingFrequency : ℝ
  explorationBreadth : ℝ
  avgTurnsPerTask : ℝ
  dominantCategory : Option TaskCategory

/-- `scores.Dependent`. -/
noncomputable def scoreDependent (m : StyleMetrics) : ℝ :=
  sigmoid m.aiDependencyScore 0.65 10 * 0.4 + (1 - m.selfModificationRate) * 0.3 +
    (1 - m.codeEditRatio) * 0.3

/-- `scores.Exploratory`. -/
noncomputable def scoreExploratory (m : StyleMetrics) : ℝ :=
  sigmoid m.avgTurnsPerTask 4 1 * 0.3 + m.explorationBreadth * 0.35 +
    m.codeEditRatio * 0.2 + m.selfModificationRate * 0.15

/-- `scores.Optimizer`. -/
noncomputable def scoreOptimizer (m : StyleMetrics) : ℝ :=
  m.adoptionRate * 0.3 + m.selfModificationRate * 0.35 + m.codeEditRatio * 0.35

/-- `scores.Debugger`. -/
noncomputable def scoreDebugger (m : StyleMetrics) : ℝ :=
  m.debuggingFrequency * 0.6 + sigmoid m.avgTurnsPerTask 3 1 * 0.2 +
    (if m.dominantCategory = some TaskCategory.debugging then (0.2 : ℝ) else 0)

/-- `scores.Balanced`. -/
noncomputable def scoreBalanced (m : StyleMetrics) : ℝ :=
  (midness m.aiDependencyScore + midness m.codeEditRatio + midness m.adoptionRate +
    midness m.selfModificationRate) / 4

/-- The scores record in its `Object.entries` insertion order. -/
noncomputable def styleScores (m : StyleMetrics) : List (LearningStyle × ℝ) :=
  [(LearningStyle.Dependent, scoreDependent m),
   (LearningStyle.Exploratory, scoreExploratory m),
   (LearningStyle.Optimizer, scoreOptimizer m),
   (LearningStyle.Debugger, scoreDebugger m),
   (LearningStyle.Balanced, scoreBalanced m)]

/-- One step of the best-score selection loop (`if (score > bestScore)`). -/
noncomputable def pickStep (best p : LearningStyle × ℝ) : LearningStyle × ℝ :=
  if best.2 < p.2 then p else best

/-- The selection loop with its initial accumulator `("Balanced", 0)`. -/
noncomputable def pickBest (l : List (LearningStyle × ℝ)) : LearningStyle × ℝ :=
  l.foldl pickStep (LearningStyle.Balanced, 0)

/-- `inferLearningStyle` from `StudentLogPersister.ts` (lines 366-440). -/
noncomputable def inferLearningStyle (m : StyleMetrics) : LearningStyle × ℝ :=
  let scores := styleScores m
  let best := pickBest scores
  let sortedScores := sortDesc (scores.map (fun p => p.2))
  let gap :=
    if 1 < sortedScores.length then sortedScores.headD 0 - (sortedScores.drop 1).headD 0
    else sortedScores.headD 0
  let confidence := min (best.2 * 0.6 + gap * 0.4) 1
  if best.2 < 0.3 then (LearningStyle.Balanced, best.2)
  else (best.1, round3 confidence)

/-- The student profile, from `types.ts` (`StudentProfile`), minus the
wall-clock `generatedAt` field. -/
structure StudentProfile where
  totalTasks : Nat
  avgTurnsPerTask : ℝ
  totalInteractions : Nat
  aiDependencyScore : ℝ
  codeEditRatio : ℝ
  adoptionRate : ℝ
  selfModificationRate : ℝ
  debuggingFrequency : ℝ
  explorationBreadth : ℝ
  dominantCategory : Option TaskCategory
  learningStyle : LearningStyle
  styleConfidence : ℝ
  timeRange : String × String

/-- The metrics `StudentProfiler.generate` computes from a log. -/
noncomputable def styleMetricsOf (logs : List StudentInteractionLog) : StyleMetrics :=
  ⟨calcAiDependency (userTurnsOf logs).length (assistantTurnsOf logs).length,
   calcCodeEditRatio (codeEditsOf logs).length (assistantTurnsOf logs),
   calcAdoptionRate (adoptionLogsOf logs),
   calcSelfModificationRate (codeEditsOf logs) (assistantTurnsOf logs),
   calcDebuggingFrequency (conversationLogsOf logs),
   calcExplorationBreadth (conversationLogsOf logs),
   calcAvgTurnsPerTask (conversationLogsOf logs) (uniqueTaskIdsOf logs).card,
   calcDominantCategory (conversationLogsOf logs)⟩

/-- `StudentProfiler.generate` from `StudentLogPersister.ts` (lines 189-247). -/
noncomputable def StudentProfiler.generate (logs : List StudentInteractionLog) :
    StudentProfile :=
  let m := styleMetricsOf logs
  let timestamps := sortAsc ((logs.map (fun l => l.ts)).filter (fun s => !(s == "")))
  let timeRange := (timestamps.headD "", timestamps.getLastD "")
  let sc := inferLearningStyle m
  ⟨(uniqueTaskIdsOf logs).card, m.avgTurnsPerTask, logs.length,
   m.aiDependencyScore, m.codeEditRatio, m.adoptionRate, m.selfModificationRate,
   m.debuggingFrequency, m.explorationBreadth, m.dominantCategory,
   sc.1, sc.2, timeRange⟩

/-! ### Offline script (`scripts/analyze-student-log.ts`)

The script duplicates the profiler: its own `ALL_CATEGORIES`, `sigmoid` and
`midness`, and one inlined `generateStudentProfile`. -/

namespace Script

/-- The script's own `ALL_CATEGORIES`. -/
def ALL_CATEGORIES : List TaskCategory :=
  [TaskCategory.algorithm, TaskCategory.debugging, TaskCategory.explanation,
   TaskCategory.language_request, TaskCategory.code_generation, TaskCategory.refactoring,
   TaskCategory.testing, TaskCategory.other]

/-- The script's own `sigmoid`. -/
noncomputable def sigmoid (x center steepness : ℝ) : ℝ :=
  1 / (1 + Real.exp (-steepness * (x - center)))

/-- The script's own `midness`. -/
noncomputable def midness (x : ℝ) : ℝ :=
  1 - 2 * |x - 0.5|

/-- The `conversationLogs` local of `generateStudentProfile`. -/
def conversationLogs (logs : List StudentInteractionLog) : List StudentInteractionLog :=
  logs.filter (fun l =>
    l.eventType == LogEventType.task_start || l.eventType == LogEventType.turn_message)

/-- The `userTurns` local of `generateStudentProfile`. -/
def userTurns (logs : List StudentInteractionLog) : List StudentInteractionLog :=
  (conversationLogs logs).filter (fun l => l.role == some MessageRole.user)

/-- The `assistantTurns` local of `generateStudentProfile`. -/
def assistantTurns (logs : List StudentInteractionLog) : List StudentInteractionLog :=
  (conversationLogs logs).filter (fun l => l.role == some MessageRole.assistant)

/-- The `codeEdits` local of `generateStudentProfile`. -/
def codeEdits (logs : List StudentInteractionLog) : List StudentInteractionLog :=
  logs.filter (fun l => l.eventType == LogEventType.code_edit)

/-- The `adoptionLogs` local of `generateStudentProfile`. -/
def adoptionLogs (logs : List StudentInteractionLog) : List StudentInteractionLog :=
  logs.filter (fun l => l.eventType == LogEventType.adoption_infer)

/-- The `uniqueTaskIds` local of `generateStudentProfile`. -/
def uniqueTaskIds (logs : List StudentInteractionLog) : Finset String :=
  (logs.map (fun l => l.taskId)).toFinset

/-- The `totalTasks` local of `generateStudentProfile`. -/
def totalTasks (logs : List StudentInteractionLog) : Nat :=
  (uniqueTaskIds logs).card

/-- The average-turns block of `generateStudentProfile`. -/
noncomputable def avgTurnsPerTask (logs : List StudentInteractionLog) : ℝ :=
  let taskTurnMax : List (String × Nat) := (conversationLogs logs).foldl
    (fun m l => jmSet m l.taskId (max ((jmGet m l.taskId).getD 0) (l.turnIndex.getD 0 + 1))) []
  let totalTurns : Nat := (taskTurnMax.map (fun e => e.2)).foldl (fun s v => s + v) 0
  if 0 < totalTasks logs then (totalTurns : ℝ) / (totalTasks logs : ℝ) else 0

/-- The AI-dependency block of `generateStudentProfile`. -/
noncomputable def aiDependencyScore (logs : List StudentInteractionLog) : ℝ :=
  let totalConv := (userTurns logs).length + (assistantTurns logs).length
  if 0 < totalConv then ((assistantTurns logs).length : ℝ) / (totalConv : ℝ) else 0

/-- The code-edit-ratio block of `generateStudentProfile`. -/
noncomputable def codeEditRatio (logs : List StudentInteractionLog) : ℝ :=
  let assistantWithCode := ((assistantTurns logs).filter (fun l => l.hasCode)).length
  if 0 < assistantWithCode then
    min (((codeEdits logs).length : ℝ) / (assistantWithCode : ℝ)) 1
  else 0

/-- The adoption-rate block of `generateStudentProfile`. -/
noncomputable def adoptionRate (logs : List StudentInteractionLog) : ℝ :=
  let determined := (adoptionLogs logs).filter (fun l =>
    l.adoptionStatus.isSome && !(l.adoptionStatus == some AdoptionStatus.unknown))
  let adoptedCount :=
    (determined.filter (fun l => l.adoptionStatus == some AdoptionStatus.adopted)).length
  if 0 < determined.length then (adoptedCount : ℝ) / (determined.length : ℝ) else 0

/-- The self-modification block of `generateStudentProfile`. -/
noncomputable def selfModificationRate (logs : List StudentInteractionLog) : ℝ :=
  let tasksWithAiCode :=
    (((assistantTurns logs).filter (fun l => l.hasCode)).map (fun l => l.taskId)).toFinset
  let tasksWithEdit := ((codeEdits logs).map (fun l => l.taskId)).toFinset
  let overlap := (tasksWithEdit ∩ tasksWithAiCode).card
  if 0 < tasksWithAiCode.card then (overlap : ℝ) / (tasksWithAiCode.card : ℝ) else 0

/-- The debugging-frequency block of `generateStudentProfile`. -/
noncomputable def debuggingFrequency (logs : List StudentInteractionLog) : ℝ :=
  if 0 < (conversationLogs logs).length then
    (((conversationLogs logs).filter (fun l => l.category == some TaskCategory.debugging)).length :
      ℝ) / ((conversationLogs logs).length : ℝ)
  else 0

/-- The exploration-breadth block of `generateStudentProfile`. -/
noncomputable def explorationBreadth (logs : List StudentInteractionLog) : ℝ :=
  let usedCategories := ((conversationLogs logs).filterMap (fun l => l.category)).toFinset
  (usedCategories.card : ℝ) / (Script.ALL_CATEGORIES.length : ℝ)

/-- The dominant-category block of `generateStudentProfile`. -/
def dominantCategory (logs : List StudentInteractionLog) : Option TaskCategory :=
  let catKeys := (conversationLogs logs).map (fun l => l.category)
  ((dedupKeys [] catKeys).foldl
    (fun best k => if catKeys.count k > best.2 then (k, catKeys.count k) else best)
    ((none : Option TaskCategory), 0)).1

/-- The time-range block of `generateStudentProfile`. -/
def timeRange (logs : List StudentInteractionLog) : String × String :=
  let timestamps := sortAsc ((logs.map (fun l => l.ts)).filter (fun s => !(s == "")))
  (timestamps.headD "", timestamps.getLastD "")

/-- The five style scores of `generateStudentProfile`, in insertion order. -/
noncomputable def styleScores (logs : List StudentInteractionLog) : List (LearningStyle × ℝ) :=
  [(LearningStyle.Dependent,
    Script.sigmoid (aiDependencyScore logs) 0.65 10 * 0.4 +
      (1 - selfModificationRate logs) * 0.3 + (1 - codeEditRatio logs) * 0.3),
   (LearningStyle.Exploratory,
    Script.sigmoid (avgTurnsPerTask logs) 4 1 * 0.3 + explorationBreadth logs * 0.35 +
      codeEditRatio logs * 0.2 + selfModificationRate logs * 0.15),
   (LearningStyle.Optimizer,
    adoptionRate logs * 0.3 + selfModificationRate logs * 0.35 + codeEditRatio logs * 0.35),
   (LearningStyle.Debugger,
    debuggingFrequency logs * 0.6 + Script.sigmoid (avgTurnsPerTask logs) 3 1 * 0.2 +
      (if dominantCategory logs = some TaskCategory.debugging then (0.2 : ℝ) else 0)),
   (LearningStyle.Balanced,
    (Script.midness (aiDependencyScore logs) + Script.midness (codeEditRatio logs) +
      Script.midness (adoptionRate logs) + Script.midness (selfModificationRate logs)) / 4)]

/-- `generateStudentProfile` from `scripts/analyze-student-log.ts`
(lines 324-453): the selection loop, sorted-gap confidence, override, and
final record over the blocks above. -/
noncomputable def generateStudentProfile (logs : List StudentInteractionLog) :
    StudentProfile :=
  let best := pickBest (styleScores logs)
  let sortedScores := sortDesc ((styleScores logs).map (fun p => p.2))
  let gap :=
    if 1 < sortedScores.length then sortedScores.headD 0 - (sortedScores.drop 1).headD 0
    else sortedScores.headD 0
  let styleConfidence0 := min (best.2 * 0.6 + gap * 0.4) 1
  let sel := if best.2 < 0.3 then (LearningStyle.Balanced, best.2) else (best.1, styleConfidence0)
  ⟨totalTasks logs, avgTurnsPerTask logs, logs.length,
   aiDependencyScore logs, codeEditRatio logs, adoptionRate logs, selfModificationRate logs,
   debuggingFrequency logs, explorationBreadth logs, dominantCategory logs,
   sel.1, round3 sel.2, timeRange logs⟩

end Script

/-! ### Specification-side definitions for C5 -/

/-- Selection as the specification words it: the style of strictly-greatest
score, exact ties keeping the earliest style in the enumeration order
Dependent, Exploratory, Optimizer, Debugger, Balanced. -/
noncomputable def specSelect (sD sE sO sDb sB : ℝ) : LearningStyle :=
  let b := max sD (max sE (max sO (max sDb sB)))
  if sD = b then LearningStyle.Dependent
  else if sE = b then LearningStyle.Exploratory
  else if sO = b then LearningStyle.Optimizer
  else if sDb = b then LearningStyle.Debugger
  else LearningStyle.Balanced

/-- The second-best score (with multiplicity): the second entry of the
descending-sorted score list. -/
noncomputable def specSecondBest (sD sE sO sDb sB : ℝ) : ℝ :=
  ((sortDesc [sD, sE, sO, sDb, sB]).drop 1).headD 0

/-- The learning-style selection exactly as the specification states it:
strictly-greatest score with earliest-enumerated tie-break, confidence
`clamp(0.6·best + 0.4·(best − secondBest), 0, 1)` rounded to 3 decimals, and
the override to `(Balanced, bestScore)` whenever `bestScore < 0.3`. -/
noncomputable def specInferLearningStyle (m : StyleMetrics) : LearningStyle × ℝ :=
  let sD := scoreDependent m
  let sE := scoreExploratory m
  let sO := scoreOptimizer m
  let sDb := scoreDebugger m
  let sB := scoreBalanced m
  let bestScore := max sD (max sE (max sO (max sDb sB)))
  let second := specSecondBest sD sE sO sDb sB
  let confidence := round3 (min (max (bestScore * 0.6 + (bestScore - second) * 0.4) 0) 1)
  if bestScore < 0.3 then (LearningStyle.Balanced, bestScore)
  else (specSelect sD sE sO sDb sB, confidence)

/-- A concrete metric record used by witnesses. -/
noncomputable def sampleMetrics : StyleMetrics :=
  ⟨0, 0, 0, 0, 0, 0, 0, none⟩

/-! ### Map lemmas -/

theorem jmGet_delete {α : Type} (m : List (String × α)) (k : String) :
    jmGet (jmDelete m k) k = none := by
  induction m with
  | nil => rfl
  | cons e es ih =>
      by_cases he : e.1 == k
      · simp only [jmDelete, List.filter_cons, he, Bool.not_true, jmDelete] at ih ⊢
        exact ih
      · simp [jmDelete, jmGet, List.filter_cons, he, List.find?]

theorem jmGet_set_self {α : Type} (m : List (String × α)) (k : String) (v : α) :
    jmGet (jmSet m k v) k = some v := by
  unfold jmSet
  split
  · rename_i hsome
    induction m with
    | nil => simp at hsome
    | cons e es ih =>
        by_cases he : e.1 == k
        · simp [jmGet, List.find?, he]
        · simp only [List.find?, he] at hsome
          simpa [jmGet, List.find?, he] using ih hsome
  · rename_i hnone
    induction m with
    | nil => simp [jmGet, List.find?]
    | cons e es ih =>
        by_cases he : e.1 == k
        · simp [List.find?, he] at hnone
        · simp only [List.find?, he] at hnone
          simpa [jmGet, List.find?, he] using ih hnone

theorem keys_jmSet_of_mem {α : Type} (m : List (String × α)) (k : String) (v : α)
    (h : (m.find? (fun e => e.1 == k)).isSome) :
    (jmSet m k v).map Prod.fst = m.map Prod.fst := by
  unfold jmSet
  rw [if_pos h, List.map_map]
  apply List.map_congr_left
  intro e _
  by_cases he : e.1 = k
  · simp [he]
  · simp [he]

theorem nodup_keys_jmSet {α : Type} (m : List (String × α)) (k : String) (v : α)
    (h : (m.map Prod.fst).Nodup) : ((jmSet m k v).map Prod.fst).Nodup := by
  by_cases hs : (m.find? (fun e => e.1 == k)).isSome
  · rw [keys_jmSet_of_mem m k v hs]
    exact h
  · have hnone : m.find? (fun e => e.1 == k) = none := by
      cases hf : m.find? (fun e => e.1 == k)
      · rfl
      · exact absurd (by simp [hf]) hs
    have hk : k ∉ m.map Prod.fst := by
      intro hmem
      obtain ⟨e, he, hek⟩ := List.mem_map.mp hmem
      have := List.find?_eq_none.mp hnone e he
      simp [hek] at this
    unfold jmSet
    rw [if_neg hs, List.map_append]
    simp only [List.map_cons, List.map_nil]
    exact List.Nodup.append h (List.nodup_singleton k) (by
      intro a ha hb
      simp only [List.mem_singleton] at hb
      exact hk (hb ▸ ha))

theorem nodup_keys_jmDelete {α : Type} (m : List (String × α)) (k : String)
    (h : (m.map Prod.fst).Nodup) : ((jmDelete m k).map Prod.fst).Nodup :=
  ((List.filter_sublist m).map Prod.fst).nodup h

theorem finalizeIfPending_state (t : AdoptionTracker) (tid : String) (now : Nat) :
    (finalizeIfPending t tid now).2 = t ∨
    (finalizeIfPending t tid now).2 = ⟨jmDelete t.pendingTurns tid⟩ := by
  unfold finalizeIfPending
  split
  · exact Or.inl rfl
  · exact Or.inr rfl

theorem onUserMessage_state (t : AdoptionTracker) (tid : String) (same : Bool) :
    (onUserMessage t tid same).2 = t ∨
    (onUserMessage t tid same).2 = ⟨jmDelete t.pendingTurns tid⟩ := by
  unfold onUserMessage
  split
  · exact Or.inl rfl
  · exact Or.inr rfl

theorem onCodeEdit_state (t : AdoptionTracker) (tid : String) :
    onCodeEdit t tid = t ∨
    ∃ p, onCodeEdit t tid = ⟨jmSet t.pendingTurns tid p⟩ := by
  unfold onCodeEdit
  split
  · exact Or.inl rfl
  · exact Or.inr ⟨_, rfl⟩

theorem onFileSave_state (t : AdoptionTracker) (tid : String) :
    onFileSave t tid = t ∨
    ∃ p, onFileSave t tid = ⟨jmSet t.pendingTurns tid p⟩ := by
  unfold onFileSave
  split
  · exact Or.inl rfl
  · exact Or.inr ⟨_, rfl⟩

theorem registerAssistantTurn_eq (t : AdoptionTracker) (tid : String) (idx : Nat)
    (sugg : SuggestionType) (hc : Bool) (ts : String) (now : Nat) :
    registerAssistantTurn t tid idx sugg hc ts now =
      ⟨jmSet ((finalizeIfPending t tid now).2).pendingTurns tid
        ⟨ts, tid, idx, sugg, hc, false, false, now⟩⟩ := rfl

theorem nodup_keys_applyOp (t : AdoptionTracker) (op : TrackerOp)
    (h : (t.pendingTurns.map Prod.fst).Nodup) :
    ((applyOp t op).pendingTurns.map Prod.fst).Nodup := by
  cases op with
  | register tid idx sugg hc ts now =>
      show ((registerAssistantTurn t tid idx sugg hc ts now).pendingTurns.map Prod.fst).Nodup
      rw [registerAssistantTurn_eq]
      rcases finalizeIfPending_state t tid now with h1 | h1 <;> rw [h1]
      · exact nodup_keys_jmSet _ _ _ h
      · exact nodup_keys_jmSet _ _ _ (nodup_keys_jmDelete _ _ h)
  | codeEdit tid =>
      show ((onCodeEdit t tid).pendingTurns.map Prod.fst).Nodup
      rcases onCodeEdit_state t tid with h1 | ⟨p, h1⟩ <;> rw [h1]
      · exact h
      · exact nodup_keys_jmSet _ _ _ h
  | fileSave tid =>
      show ((onFileSave t tid).pendingTurns.map Prod.fst).Nodup
      rcases onFileSave_state t tid with h1 | ⟨p, h1⟩ <;> rw [h1]
      · exact h
      · exact nodup_keys_jmSet _ _ _ h
  | userMessage tid same =>
      show (((onUserMessage t tid same).2).pendingTurns.map Prod.fst).Nodup
      rcases onUserMessage_state t tid same with h1 | h1 <;> rw [h1]
      · exact h
      · exact nodup_keys_jmDelete _ _ h
  | finalize tid now =>
      show (((finalizeIfPending t tid now).2).pendingTurns.map Prod.fst).Nodup
      rcases finalizeIfPending_state t tid now with h1 | h1 <;> rw [h1]
      · exact h
      · exact nodup_keys_jmDelete _ _ h

theorem noPending_onUserMessage (t : AdoptionTracker) (tid : String) (same : Bool)
    (h : jmGet t.pendingTurns tid = none) :
    onUserMessage t tid same = (AdoptionStatus.unknown, t) := by
  unfold onUserMessage
  rw [h]

theorem noPending_finalizeIfPending (t : AdoptionTracker) (tid : String) (now : Nat)
    (h : jmGet t.pendingTurns tid = none) :
    finalizeIfPending t tid now = (AdoptionStatus.unknown, t) := by
  unfold finalizeIfPending
  rw [h]

theorem onUserMessage_clears (t : AdoptionTracker) (tid : String) (same : Bool) :
    jmGet ((onUserMessage t tid same).2).pendingTurns tid = none := by
  unfold onUserMessage
  split
  · rename_i h
    exact h
  · exact jmGet_delete t.pendingTurns tid

theorem finalizeIfPending_clears (t : AdoptionTracker) (tid : String) (now : Nat) :
    jmGet ((finalizeIfPending t tid now).2).pendingTurns tid = none := by
  unfold finalizeIfPending
  split
  · rename_i h
    exact h
  · exact jmGet_delete t.pendingTurns tid

/-- C1: for every pending assistant turn, `onUserMessage` resolves it by the
message-arrival rule in strict priority order (code+edit/save → adopted;
completion → adopted; same topic → continued; no edit and no save → rejected;
otherwise adopted). -/
theorem C1_onUserMessage_follows_message_arrival_rule
    (t : AdoptionTracker) (tid : String) (same : Bool) (p : PendingAssistantTurn)
    (h : jmGet t.pendingTurns tid = some p) :
    (onUserMessage t tid same).1 =
      messageArrivalRule p.hasCode p.suggestionType p.hasCodeEdit p.hasFileSave same := by
  unfold onUserMessage
  rw [h]
  show inferAdoption p same = _
  unfold inferAdoption messageArrivalRule
  rfl

/-- Witness for C1 at a concrete tracker state. -/
theorem C1_witness :
    jmGet sampleTracker.pendingTurns "t1" = some sampleTurn ∧
    (onUserMessage sampleTracker "t1" true).1 =
      messageArrivalRule sampleTurn.hasCode sampleTurn.suggestionType
        sampleTurn.hasCodeEdit sampleTurn.hasFileSave true :=
  ⟨rfl, C1_onUserMessage_follows_message_arrival_rule sampleTracker "t1" true sampleTurn rfl⟩

/-- C2: for every pending assistant turn, `finalizeIfPending` returns `adopted`
exactly when an edit or save flag is set and `unknown` otherwise, for every
value of the clock (so also below the 60,000 ms timeout), and in particular it
returns `unknown` immediately after a fresh registration. -/
theorem C2_finalizeIfPending_behavior_rule :
    (∀ (t : AdoptionTracker) (tid : String) (now : Nat) (p : PendingAssistantTurn),
      jmGet t.pendingTurns tid = some p →
      (finalizeIfPending t tid now).1 =
        (if p.hasCodeEdit || p.hasFileSave then AdoptionStatus.adopted
         else AdoptionStatus.unknown)) ∧
    (∀ (t : AdoptionTracker) (tid : String) (idx : Nat) (sugg : SuggestionType)
        (hc : Bool) (ts : String) (now later : Nat),
      (finalizeIfPending (registerAssistantTurn t tid idx sugg hc ts now) tid later).1 =
        AdoptionStatus.unknown) := by
  constructor
  · intro t tid now p h
    unfold finalizeIfPending
    rw [h]
    show inferAdoptionByBehavior p now = _
    unfold inferAdoptionByBehavior
    cases he : p.hasCodeEdit <;> cases hs : p.hasFileSave <;> simp [ADOPTION_TIMEOUT_MS]
  · intro t tid idx sugg hc ts now later
    have h : jmGet (registerAssistantTurn t tid idx sugg hc ts now).pendingTurns tid =
        some ⟨ts, tid, idx, sugg, hc, false, false, now⟩ :=
      jmGet_set_self _ tid _
    unfold finalizeIfPending
    rw [h]
    show inferAdoptionByBehavior ⟨ts, tid, idx, sugg, hc, false, false, now⟩ later =
      AdoptionStatus.unknown
    unfold inferAdoptionByBehavior
    simp

/-- Witness for C2 at a concrete tracker state and clock values. -/
theorem C2_witness :
    (jmGet sampleTracker.pendingTurns "t1" = some sampleTurn ∧
     (finalizeIfPending sampleTracker "t1" 10).1 =
       (if sampleTurn.hasCodeEdit || sampleTurn.hasFileSave then AdoptionStatus.adopted
        else AdoptionStatus.unknown)) ∧
    (finalizeIfPending
        (registerAssistantTurn (AdoptionTracker.mk []) "t2" 0 SuggestionType.explanation false
          "2024" 0) "t2" 1).1 = AdoptionStatus.unknown :=
  ⟨⟨rfl, C2_finalizeIfPending_behavior_rule.1 sampleTracker "t1" 10 sampleTurn rfl⟩,
    C2_finalizeIfPending_behavior_rule.2 (AdoptionTracker.mk []) "t2" 0
      SuggestionType.explanation false "2024" 0 1⟩

/-- C4: along every call sequence the tracker holds at most one pending turn
per task id (the keys of the pending map are without duplicates), and
`registerAssistantTurn` always leaves the task bound to a fresh pending turn
whose edit and save flags are both false. -/
theorem C4_at_most_one_pending_turn :
    (∀ ops : List TrackerOp, ((runOps ops).pendingTurns.map Prod.fst).Nodup) ∧
    (∀ (t : AdoptionTracker) (tid : String) (idx : Nat) (sugg : SuggestionType)
        (hc : Bool) (ts : String) (now : Nat),
      jmGet (registerAssistantTurn t tid idx sugg hc ts now).pendingTurns tid =
        some ⟨ts, tid, idx, sugg, hc, false, false, now⟩) := by
  constructor
  · intro ops
    unfold runOps
    have inv : ∀ (l : List TrackerOp) (t : AdoptionTracker),
        (t.pendingTurns.map Prod.fst).Nodup →
        ((l.foldl applyOp t).pendingTurns.map Prod.fst).Nodup := by
      intro l
      induction l with
      | nil => intro t h; exact h
      | cons op rest ih =>
          intro t h
          exact ih (applyOp t op) (nodup_keys_applyOp t op h)
    exact inv ops ⟨[]⟩ (by simp)
  · intro t tid idx sugg hc ts now
    exact jmGet_set_self _ tid _

/-- C6: for a task id with no pending turn, `onCodeEdit` and `onFileSave`
leave the tracker unchanged, and `onUserMessage` and `finalizeIfPending`
return `unknown` without changing the state; every operation is total. -/
theorem C6_unknown_task_id_is_noop
    (t : AdoptionTracker) (tid : String) (same : Bool) (now : Nat)
    (h : jmGet t.pendingTurns tid = none) :
    onCodeEdit t tid = t ∧ onFileSave t tid = t ∧
    onUserMessage t tid same = (AdoptionStatus.unknown, t) ∧
    finalizeIfPending t tid now = (AdoptionStatus.unknown, t) := by
  refine ⟨?_, ?_, ?_, ?_⟩ <;>
    simp [onCodeEdit, onFileSave, onUserMessage, finalizeIfPending, h]

/-- Witness for C6 at a concrete tracker state holding an unrelated task. -/
theorem C6_witness :
    jmGet sampleTracker.pendingTurns "t9" = none ∧
    (onCodeEdit sampleTracker "t9" = sampleTracker ∧
     onFileSave sampleTracker "t9" = sampleTracker ∧
     onUserMessage sampleTracker "t9" false = (AdoptionStatus.unknown, sampleTracker) ∧
     finalizeIfPending sampleTracker "t9" 77 = (AdoptionStatus.unknown, sampleTracker)) :=
  ⟨rfl, C6_unknown_task_id_is_noop sampleTracker "t9" false 77 rfl⟩

/-- C10: a registered turn yields at most one verdict: once `onUserMessage` or
`finalizeIfPending` has returned for a task, a second call to either operation
on that task returns `unknown` and leaves the tracker unchanged, because
resolving a pending turn deletes it from the pending map. -/
theorem C10_at_most_one_verdict
    (t : AdoptionTracker) (tid : String) (same later_same : Bool) (now later : Nat) :
    onUserMessage ((onUserMessage t tid same).2) tid later_same =
      (AdoptionStatus.unknown, (onUserMessage t tid same).2) ∧
    finalizeIfPending ((onUserMessage t tid same).2) tid later =
      (AdoptionStatus.unknown, (onUserMessage t tid same).2) ∧
    onUserMessage ((finalizeIfPending t tid now).2) tid later_same =
      (AdoptionStatus.unknown, (finalizeIfPending t tid now).2) ∧
    finalizeIfPending ((finalizeIfPending t tid now).2) tid later =
      (AdoptionStatus.unknown, (finalizeIfPending t tid now).2) := by
  exact ⟨noPending_onUserMessage _ tid later_same (onUserMessage_clears t tid same),
    noPending_finalizeIfPending _ tid later (onUserMessage_clears t tid same),
    noPending_onUserMessage _ tid later_same (finalizeIfPending_clears t tid now),
    noPending_finalizeIfPending _ tid later (finalizeIfPending_clears t tid now)⟩

/-- C7: every metric computation yields exactly 0 when its denominator is
empty (no conversational user/assistant turns, no assistant turn with code,
no determined verdict, no task with AI code, no conversational event, no
task), so no division by zero is ever performed. -/
theorem C7_zero_denominators (logs : List StudentInteractionLog) :
    ((userTurnsOf logs).length + (assistantTurnsOf logs).length = 0 →
      calcAiDependency (userTurnsOf logs).length (assistantTurnsOf logs).length = 0) ∧
    (((assistantTurnsOf logs).filter (fun l => l.hasCode)).length = 0 →
      calcCodeEditRatio (codeEditsOf logs).length (assistantTurnsOf logs) = 0) ∧
    (determinedOf (adoptionLogsOf logs) = [] →
      calcAdoptionRate (adoptionLogsOf logs) = 0) ∧
    (tasksWithAiCodeOf (assistantTurnsOf logs) = ∅ →
      calcSelfModificationRate (codeEditsOf logs) (assistantTurnsOf logs) = 0) ∧
    (conversationLogsOf logs = [] →
      calcDebuggingFrequency (conversationLogsOf logs) = 0) ∧
    ((uniqueTaskIdsOf logs).card = 0 →
      calcAvgTurnsPerTask (conversationLogsOf logs) (uniqueTaskIdsOf logs).card = 0) := by
  refine ⟨?_, ?_, ?_, ?_, ?_, ?_⟩ <;> intro h
  · simp [calcAiDependency, h]
  · simp [calcCodeEditRatio, h]
  · simp [calcAdoptionRate, h]
  · simp [calcSelfModificationRate, h]
  · simp [calcDebuggingFrequency, h]
  · simp [calcAvgTurnsPerTask, h]

/-- Witness for C7 at the empty log, where every denominator is empty. -/
theorem C7_witness :
    calcAiDependency (userTurnsOf []).length (assistantTurnsOf []).length = 0 ∧
    calcCodeEditRatio (codeEditsOf []).length (assistantTurnsOf []) = 0 ∧
    calcAdoptionRate (adoptionLogsOf []) = 0 ∧
    calcSelfModificationRate (codeEditsOf []) (assistantTurnsOf []) = 0 ∧
    calcDebuggingFrequency (conversationLogsOf []) = 0 ∧
    calcAvgTurnsPerTask (conversationLogsOf []) (uniqueTaskIdsOf []).card = 0 :=
  ⟨(C7_zero_denominators []).1 (by rfl),
   (C7_zero_denominators []).2.1 (by rfl),
   (C7_zero_denominators []).2.2.1 (by rfl),
   (C7_zero_denominators []).2.2.2.1 (by
      simp [tasksWithAiCodeOf, assistantTurnsOf, conversationLogsOf]),
   (C7_zero_denominators []).2.2.2.2.1 (by rfl),
   (C7_zero_denominators []).2.2.2.2.2 (by rfl)⟩

/-- C8: `explorationBreadth` always lies in `[0, 1]` and equals 1 exactly when
all 8 task categories occur among the conversational events of the log. -/
theorem C8_explorationBreadth_bounds (logs : List StudentInteractionLog) :
    0 ≤ calcExplorationBreadth (conversationLogsOf logs) ∧
    calcExplorationBreadth (conversationLogsOf logs) ≤ 1 ∧
    (calcExplorationBreadth (conversationLogsOf logs) = 1 ↔
      ∀ c : TaskCategory, ∃ l ∈ conversationLogsOf logs, l.category = some c) := by
  have hfin : Fintype.card TaskCategory = 8 := by rfl
  have hcard : (usedCategoriesOf (conversationLogsOf logs)).card ≤ 8 := by
    calc (usedCategoriesOf (conversationLogsOf logs)).card
        ≤ Fintype.card TaskCategory := Finset.card_le_univ _
      _ = 8 := hfin
  have hlen : (ALL_CATEGORIES.length : ℝ) = 8 := by simp [ALL_CATEGORIES]
  unfold calcExplorationBreadth
  rw [hlen]
  refine ⟨by positivity, ?_, ?_⟩
  · rw [div_le_one (by norm_num)]
    exact_mod_cast hcard
  · rw [div_eq_one_iff_eq (by norm_num)]
    have h1 : ((usedCategoriesOf (conversationLogsOf logs)).card : ℝ) = (8 : ℝ) ↔
        (usedCategoriesOf (conversationLogsOf logs)).card = 8 := by
      exact_mod_cast Iff.rfl
    rw [h1, ← hfin, Finset.card_eq_iff_eq_univ, Finset.eq_univ_iff_forall]
    constructor
    · intro h c
      have := h c
      simpa [usedCategoriesOf, List.mem_filterMap] using this
    · intro h c
      simpa [usedCategoriesOf, List.mem_filterMap] using h c

/-! ### Selection-loop lemmas -/

theorem pickStep_le_left (b p : LearningStyle × ℝ) : b.2 ≤ (pickStep b p).2 := by
  by_cases h : b.2 < p.2
  · unfold pickStep
    rw [if_pos h]
    exact le_of_lt h
  · unfold pickStep
    rw [if_neg h]

theorem pickStep_le_right (b p : LearningStyle × ℝ) : p.2 ≤ (pickStep b p).2 := by
  by_cases h : b.2 < p.2
  · unfold pickStep
    rw [if_pos h]
  · unfold pickStep
    rw [if_neg h]
    exact le_of_not_lt h

theorem foldl_pickStep_init_le (l : List (LearningStyle × ℝ)) :
    ∀ b, b.2 ≤ (l.foldl pickStep b).2 := by
  induction l with
  | nil => intro b; exact le_refl _
  | cons q qs ih =>
      intro b
      rw [List.foldl_cons]
      exact le_trans (pickStep_le_left b q) (ih (pickStep b q))

theorem foldl_pickStep_mem_le (l : List (LearningStyle × ℝ)) :
    ∀ b p, p ∈ l → p.2 ≤ (l.foldl pickStep b).2 := by
  induction l with
  | nil => intro b p hp; cases hp
  | cons q qs ih =>
      intro b p hp
      rw [List.foldl_cons]
      rcases List.mem_cons.mp hp with h | h
      · subst h
        exact le_trans (pickStep_le_right b p) (foldl_pickStep_init_le qs (pickStep b p))
      · exact ih (pickStep b q) p h

theorem foldl_pickStep_state (l : List (LearningStyle × ℝ)) :
    ∀ b, l.foldl pickStep b = b ∨ l.foldl pickStep b ∈ l := by
  induction l with
  | nil => intro b; exact Or.inl rfl
  | cons q qs ih =>
      intro b
      rw [List.foldl_cons]
      rcases ih (pickStep b q) with h | h
      · rw [h]
        unfold pickStep
        split
        · exact Or.inr (List.mem_cons_self _ _)
        · exact Or.inl rfl
      · exact Or.inr (List.mem_cons_of_mem _ h)

theorem foldl_pickStep_const (l : List (LearningStyle × ℝ)) :
    ∀ b, (∀ p ∈ l, p.2 ≤ b.2) → l.foldl pickStep b = b := by
  induction l with
  | nil => intro b _; rfl
  | cons q qs ih =>
      intro b h
      have hq : q.2 ≤ b.2 := h q (List.mem_cons_self q qs)
      have hstep : pickStep b q = b := by
        unfold pickStep
        rw [if_neg (not_lt.mpr hq)]
      rw [List.foldl_cons, hstep]
      exact ih b (fun p hp => h p (List.mem_cons_of_mem q hp))

theorem foldl_pickStep_find (l : List (LearningStyle × ℝ)) :
    ∀ (b : LearningStyle × ℝ) (M : ℝ) (p : LearningStyle × ℝ),
      b.2 < M → (∀ q ∈ l, q.2 ≤ M) →
      l.find? (fun q => decide (q.2 = M)) = some p →
      l.foldl pickStep b = p := by
  induction l with
  | nil =>
      intro b M p _ _ hf
      simp at hf
  | cons q qs ih =>
      intro b M p hb hle hf
      by_cases hq : q.2 = M
      · have hqp : q = p := by
          rw [List.find?_cons_of_pos _ (by simp [hq])] at hf
          exact Option.some.inj hf
        subst hqp
        have hstep : pickStep b q = q := by
          unfold pickStep
          rw [if_pos (hq ▸ hb)]
        rw [List.foldl_cons, hstep]
        exact foldl_pickStep_const qs q
          (fun r hr => (hle r (List.mem_cons_of_mem q hr)).trans_eq hq.symm)
      · rw [List.find?_cons_of_neg _ (by simp [hq])] at hf
        have hq' : q.2 < M :=
          lt_of_le_of_ne (hle q (List.mem_cons_self q qs)) hq
        have hstep2 : (pickStep b q).2 < M := by
          unfold pickStep
          split
          · exact hq'
          · exact hb
        rw [List.foldl_cons]
        exact ih (pickStep b q) M p hstep2
          (fun r hr => hle r (List.mem_cons_of_mem q hr)) hf

/-! ### Sorting lemmas -/

instance : IsTotal ℝ (fun a b : ℝ => a ≥ b) := ⟨fun a b => le_total b a⟩

instance : IsTrans ℝ (fun a b : ℝ => a ≥ b) := ⟨fun _ _ _ h1 h2 => le_trans h2 h1⟩

theorem sortDesc_length (l : List ℝ) : (sortDesc l).length = l.length :=
  List.length_insertionSort _ l

theorem sortDesc_sorted (l : List ℝ) : (sortDesc l).Sorted (fun a b : ℝ => a ≥ b) :=
  List.sorted_insertionSort _ l

theorem sortDesc_perm (l : List ℝ) : List.Perm (sortDesc l) l :=
  List.perm_insertionSort _ l

theorem sortDesc_headD_eq_max (l : List ℝ) (B : ℝ) (hmem : B ∈ l)
    (hle : ∀ x ∈ l, x ≤ B) : (sortDesc l).headD 0 = B := by
  cases hs : sortDesc l with
  | nil =>
      exfalso
      have hperm := sortDesc_perm l
      rw [hs] at hperm
      rw [hperm.symm.eq_nil] at hmem
      cases hmem
  | cons a as =>
      have hperm := sortDesc_perm l
      have hsorted := sortDesc_sorted l
      rw [hs] at hperm hsorted
      have ha_mem : a ∈ l := hperm.mem_iff.mp (List.mem_cons_self a as)
      have haB : a ≤ B := hle a ha_mem
      have hBmem : B ∈ a :: as := hperm.mem_iff.mpr hmem
      have hBa : B ≤ a := by
        rcases List.mem_cons.mp hBmem with h | h
        · exact le_of_eq h
        · exact (List.sorted_cons.mp hsorted).1 B h
      simpa using le_antisymm haB hBa

theorem sortDesc_second_le_head (l : List ℝ) (h2 : 2 ≤ l.length) :
    ((sortDesc l).drop 1).headD 0 ≤ (sortDesc l).headD 0 := by
  have hlen : 2 ≤ (sortDesc l).length := by
    rw [sortDesc_length]
    exact h2
  cases hs : sortDesc l with
  | nil =>
      rw [hs] at hlen
      simp at hlen
  | cons a as =>
      cases as with
      | nil =>
          rw [hs] at hlen
          simp at hlen
      | cons c cs =>
          have hsorted := sortDesc_sorted l
          rw [hs] at hsorted
          simpa using (List.sorted_cons.mp hsorted).1 c (List.mem_cons_self c cs)

theorem max5_cases (sD sE sO sDb sB : ℝ) :
    max sD (max sE (max sO (max sDb sB))) = sD ∨
    max sD (max sE (max sO (max sDb sB))) = sE ∨
    max sD (max sE (max sO (max sDb sB))) = sO ∨
    max sD (max sE (max sO (max sDb sB))) = sDb ∨
    max sD (max sE (max sO (max sDb sB))) = sB := by
  rcases max_choice sD (max sE (max sO (max sDb sB))) with h | h
  · exact Or.inl h
  · rw [h]
    rcases max_choice sE (max sO (max sDb sB)) with h2 | h2
    · exact Or.inr (Or.inl h2)
    · rw [h2]
      rcases max_choice sO (max sDb sB) with h3 | h3
      · exact Or.inr (Or.inr (Or.inl h3))
      · rw [h3]
        rcases max_choice sDb sB with h4 | h4
        · exact Or.inr (Or.inr (Or.inr (Or.inl h4)))
        · rw [h4]
          exact Or.inr (Or.inr (Or.inr (Or.inr rfl)))

theorem pickBest5 (sD sE sO sDb sB b : ℝ)
    (hb : b = max sD (max sE (max sO (max sDb sB)))) (h0 : 0 < b) :
    pickBest [(LearningStyle.Dependent, sD), (LearningStyle.Exploratory, sE),
      (LearningStyle.Optimizer, sO), (LearningStyle.Debugger, sDb),
      (LearningStyle.Balanced, sB)] = (specSelect sD sE sO sDb sB, b) := by
  have hDle : sD ≤ b := hb ▸ le_max_left _ _
  have hEle : sE ≤ b := hb ▸ le_max_of_le_right (le_max_left _ _)
  have hOle : sO ≤ b := hb ▸ le_max_of_le_right (le_max_of_le_right (le_max_left _ _))
  have hDble : sDb ≤ b :=
    hb ▸ le_max_of_le_right (le_max_of_le_right (le_max_of_le_right (le_max_left _ _)))
  have hBle : sB ≤ b :=
    hb ▸ le_max_of_le_right (le_max_of_le_right (le_max_of_le_right (le_max_right _ _)))
  have hle : ∀ q ∈ [(LearningStyle.Dependent, sD), (LearningStyle.Exploratory, sE),
      (LearningStyle.Optimizer, sO), (LearningStyle.Debugger, sDb),
      (LearningStyle.Balanced, sB)], q.2 ≤ b := by
    intro q hq
    simp only [List.mem_cons, List.not_mem_nil, or_false] at hq
    rcases hq with rfl | rfl | rfl | rfl | rfl
    exacts [hDle, hEle, hOle, hDble, hBle]
  have hinit : ((LearningStyle.Balanced, (0 : ℝ)) : LearningStyle × ℝ).2 < b := h0
  unfold pickBest specSelect
  rw [← hb]
  by_cases h1 : sD = b
  · rw [if_pos h1]
    rw [foldl_pickStep_find _ _ b (LearningStyle.Dependent, sD) hinit hle
      (List.find?_cons_of_pos _ (by simp [h1]))]
    rw [h1]
  · rw [if_neg h1]
    by_cases h2 : sE = b
    · rw [if_pos h2]
      rw [foldl_pickStep_find _ _ b (LearningStyle.Exploratory, sE) hinit hle (by
        rw [List.find?_cons_of_neg _ (by simp [h1])]
        exact List.find?_cons_of_pos _ (by simp [h2]))]
      rw [h2]
    · rw [if_neg h2]
      by_cases h3 : sO = b
      · rw [if_pos h3]
        rw [foldl_pickStep_find _ _ b (LearningStyle.Optimizer, sO) hinit hle (by
          rw [List.find?_cons_of_neg _ (by simp [h1]), List.find?_cons_of_neg _ (by simp [h2])]
          exact List.find?_cons_of_pos _ (by simp [h3]))]
        rw [h3]
      · rw [if_neg h3]
        by_cases h4 : sDb = b
        · rw [if_pos h4]
          rw [foldl_pickStep_find _ _ b (LearningStyle.Debugger, sDb) hinit hle (by
            rw [List.find?_cons_of_neg _ (by simp [h1]), List.find?_cons_of_neg _ (by simp [h2]),
              List.find?_cons_of_neg _ (by simp [h3])]
            exact List.find?_cons_of_pos _ (by simp [h4]))]
          rw [h4]
        · rw [if_neg h4]
          have h5 : sB = b := by
            rcases max5_cases sD sE sO sDb sB with h | h | h | h | h
            · exact absurd (hb.trans h).symm h1
            · exact absurd (hb.trans h).symm h2
            · exact absurd (hb.trans h).symm h3
            · exact absurd (hb.trans h).symm h4
            · exact (hb.trans h).symm
          rw [foldl_pickStep_find _ _ b (LearningStyle.Balanced, sB) hinit hle (by
            rw [List.find?_cons_of_neg _ (by simp [h1]), List.find?_cons_of_neg _ (by simp [h2]),
              List.find?_cons_of_neg _ (by simp [h3]), List.find?_cons_of_neg _ (by simp [h4])]
            exact List.find?_cons_of_pos _ (by simp [h5]))]
          rw [h5]

/-! ### Score bounds -/

theorem sigmoid_pos (x c s : ℝ) : 0 < sigmoid x c s := by
  unfold sigmoid
  positivity

theorem sigmoid_lt_one (x c s : ℝ) : sigmoid x c s < 1 := by
  unfold sigmoid
  rw [div_lt_one (by positivity)]
  linarith [Real.exp_pos (-s * (x - c))]

theorem midness_nonneg (x : ℝ) (h0 : 0 ≤ x) (h1 : x ≤ 1) : 0 ≤ midness x := by
  unfold midness
  have h : |x - 0.5| ≤ 0.5 := abs_le.mpr ⟨by linarith, by linarith⟩
  linarith

theorem max5_mem (sD sE sO sDb sB : ℝ) :
    max sD (max sE (max sO (max sDb sB))) ∈ [sD, sE, sO, sDb, sB] := by
  rcases max5_cases sD sE sO sDb sB with h | h | h | h | h <;> rw [h] <;> simp

theorem mem5_le_max (sD sE sO sDb sB : ℝ) :
    ∀ x ∈ [sD, sE, sO, sDb, sB], x ≤ max sD (max sE (max sO (max sDb sB))) := by
  intro x hx
  simp only [List.mem_cons, List.not_mem_nil, or_false] at hx
  rcases hx with rfl | rfl | rfl | rfl | rfl
  · exact le_max_left _ _
  · exact le_max_of_le_right (le_max_left _ _)
  · exact le_max_of_le_right (le_max_of_le_right (le_max_left _ _))
  · exact le_max_of_le_right (le_max_of_le_right (le_max_of_le_right (le_max_left _ _)))
  · exact le_max_of_le_right (le_max_of_le_right (le_max_of_le_right (le_max_right _ _)))

/-- With in-range metrics the best style score always exceeds 0.3: either
self-modification + code-edit stay below 1 and the Dependent score exceeds
0.3, or their sum exceeds 1 and the Optimizer score exceeds 0.35.  The
`bestScore < 0.3` override of `inferLearningStyle` is therefore dead code for
metrics a log can produce. -/
theorem max5_ge_03 (m : StyleMetrics)
    (hce0 : 0 ≤ m.codeEditRatio) (hce1 : m.codeEditRatio ≤ 1)
    (hsm0 : 0 ≤ m.selfModificationRate) (hsm1 : m.selfModificationRate ≤ 1)
    (har : 0 ≤ m.adoptionRate) :
    (0.3 : ℝ) < max (scoreDependent m) (max (scoreExploratory m)
      (max (scoreOptimizer m) (max (scoreDebugger m) (scoreBalanced m)))) := by
  by_cases hsum : m.selfModificationRate + m.codeEditRatio ≤ 1
  · have h : (0.3 : ℝ) < scoreDependent m := by
      have hσ := sigmoid_pos m.aiDependencyScore 0.65 10
      unfold scoreDependent
      nlinarith
    exact lt_of_lt_of_le h (le_max_left _ _)
  · push_neg at hsum
    have h : (0.3 : ℝ) < scoreOptimizer m := by
      unfold scoreOptimizer
      nlinarith
    exact lt_of_lt_of_le h
      (le_max_of_le_right (le_max_of_le_right (le_max_left _ _)))

/-- C5: the learning-style selection is exactly the specification's rule:
strictly-greatest score with earliest-enumerated tie-break (Dependent,
Exploratory, Optimizer, Debugger, Balanced), confidence
`clamp(0.6·best + 0.4·(best − secondBest), 0, 1)` rounded to 3 decimals, and
the `(Balanced, bestScore)` override whenever `bestScore < 0.3`. -/
theorem C5_learning_style_selection (m : StyleMetrics)
    (h1 : 0 ≤ m.aiDependencyScore) (h2 : m.aiDependencyScore ≤ 1)
    (h3 : 0 ≤ m.codeEditRatio) (h4 : m.codeEditRatio ≤ 1)
    (h5 : 0 ≤ m.adoptionRate) (h6 : m.adoptionRate ≤ 1)
    (h7 : 0 ≤ m.selfModificationRate) (h8 : m.selfModificationRate ≤ 1)
    (h9 : 0 ≤ m.debuggingFrequency) (h10 : 0 ≤ m.explorationBreadth) :
    inferLearningStyle m = specInferLearningStyle m := by
  have hb30 := max5_ge_03 m h3 h4 h7 h8 h5
  have h0 : (0 : ℝ) < max (scoreDependent m) (max (scoreExploratory m)
      (max (scoreOptimizer m) (max (scoreDebugger m) (scoreBalanced m)))) :=
    lt_trans (by norm_num) hb30
  have hpick : pickBest (styleScores m) =
      (specSelect (scoreDependent m) (scoreExploratory m) (scoreOptimizer m)
        (scoreDebugger m) (scoreBalanced m),
       max (scoreDependent m) (max (scoreExploratory m)
         (max (scoreOptimizer m) (max (scoreDebugger m) (scoreBalanced m))))) :=
    pickBest5 _ _ _ _ _ _ rfl h0
  have hmem := max5_mem (scoreDependent m) (scoreExploratory m) (scoreOptimizer m)
    (scoreDebugger m) (scoreBalanced m)
  have hall := mem5_le_max (scoreDependent m) (scoreExploratory m) (scoreOptimizer m)
    (scoreDebugger m) (scoreBalanced m)
  have hs0 : (sortDesc [scoreDependent m, scoreExploratory m, scoreOptimizer m,
      scoreDebugger m, scoreBalanced m]).headD 0 =
      max (scoreDependent m) (max (scoreExploratory m)
        (max (scoreOptimizer m) (max (scoreDebugger m) (scoreBalanced m)))) :=
    sortDesc_headD_eq_max _ _ hmem hall
  have hs1le := sortDesc_second_le_head [scoreDependent m, scoreExploratory m,
    scoreOptimizer m, scoreDebugger m, scoreBalanced m] (by simp)
  have hlen5 : 1 < (sortDesc [scoreDependent m, scoreExploratory m, scoreOptimizer m,
      scoreDebugger m, scoreBalanced m]).length := by
    rw [sortDesc_length]
    simp
  have hnlt : ¬ (max (scoreDependent m) (max (scoreExploratory m)
      (max (scoreOptimizer m) (max (scoreDebugger m) (scoreBalanced m)))) < 0.3) :=
    not_lt.mpr (le_of_lt hb30)
  simp only [inferLearningStyle, specInferLearningStyle, specSecondBest]
  rw [hpick]
  simp only [styleScores, List.map_cons, List.map_nil]
  rw [hs0, if_pos hlen5, if_neg hnlt, if_neg hnlt]
  have hX0 : (0 : ℝ) ≤ (max (scoreDependent m) (max (scoreExploratory m)
        (max (scoreOptimizer m) (max (scoreDebugger m) (scoreBalanced m))))) * 0.6 +
      (max (scoreDependent m) (max (scoreExploratory m)
        (max (scoreOptimizer m) (max (scoreDebugger m) (scoreBalanced m)))) -
       ((sortDesc [scoreDependent m, scoreExploratory m, scoreOptimizer m,
         scoreDebugger m, scoreBalanced m]).drop 1).headD 0) * 0.4 := by
    rw [hs0] at hs1le
    nlinarith
  rw [max_eq_left hX0]

/-- Witness for C5 at a concrete metric record with every metric 0. -/
theorem C5_witness :
    ((0 : ℝ) ≤ sampleMetrics.aiDependencyScore ∧ sampleMetrics.aiDependencyScore ≤ 1 ∧
     0 ≤ sampleMetrics.codeEditRatio ∧ sampleMetrics.codeEditRatio ≤ 1 ∧
     0 ≤ sampleMetrics.adoptionRate ∧ sampleMetrics.adoptionRate ≤ 1 ∧
     0 ≤ sampleMetrics.selfModificationRate ∧ sampleMetrics.selfModificationRate ≤ 1 ∧
     0 ≤ sampleMetrics.debuggingFrequency ∧ 0 ≤ sampleMetrics.explorationBreadth) ∧
    inferLearningStyle sampleMetrics = specInferLearningStyle sampleMetrics :=
  ⟨⟨by norm_num [sampleMetrics], by norm_num [sampleMetrics], by norm_num [sampleMetrics],
    by norm_num [sampleMetrics], by norm_num [sampleMetrics], by norm_num [sampleMetrics],
    by norm_num [sampleMetrics], by norm_num [sampleMetrics], by norm_num [sampleMetrics],
    by norm_num [sampleMetrics]⟩,
   C5_learning_style_selection sampleMetrics
    (by norm_num [sampleMetrics]) (by norm_num [sampleMetrics]) (by norm_num [sampleMetrics])
    (by norm_num [sampleMetrics]) (by norm_num [sampleMetrics]) (by norm_num [sampleMetrics])
    (by norm_num [sampleMetrics]) (by norm_num [sampleMetrics]) (by norm_num [sampleMetrics])
    (by norm_num [sampleMetrics])⟩

/-! ### Metric ranges -/

theorem calcCodeEditRatio_range (c : Nat) (ats : List StudentInteractionLog) :
    0 ≤ calcCodeEditRatio c ats ∧ calcCodeEditRatio c ats ≤ 1 := by
  simp only [calcCodeEditRatio]
  split_ifs with h
  · norm_num
  · constructor
    · positivity
    · exact min_le_right _ _

theorem calcSelfModificationRate_range (ce ats : List StudentInteractionLog) :
    0 ≤ calcSelfModificationRate ce ats ∧ calcSelfModificationRate ce ats ≤ 1 := by
  simp only [calcSelfModificationRate]
  split_ifs with h
  · norm_num
  · constructor
    · positivity
    · rw [div_le_one (by exact_mod_cast Nat.pos_of_ne_zero h)]
      exact_mod_cast Finset.card_le_card Finset.inter_subset_right

theorem calcAdoptionRate_nonneg (al : List StudentInteractionLog) :
    0 ≤ calcAdoptionRate al := by
  simp only [calcAdoptionRate]
  split_ifs with h
  · norm_num
  · positivity

/-- C9: for every log, the in-extension profile of `StudentProfiler.generate`
and the offline script's `generateStudentProfile` coincide in every field
(the wall-clock `generatedAt`, excluded from the embedding, aside).  The two
sources differ only in that the script rounds the confidence in the
`bestScore < 0.3` override path while the profiler does not; that path is
unreachable because the best score always exceeds 0.3. -/
theorem C9_generate_eq_script (logs : List StudentInteractionLog) :
    StudentProfiler.generate logs = Script.generateStudentProfile logs := by
  have hflip : ∀ (n : Nat) (x : ℝ), (if n = 0 then (0 : ℝ) else x) = if 0 < n then x else 0 := by
    intro n x
    rcases Nat.eq_zero_or_pos n with h | h
    · simp [h]
    · simp [h, h.ne']
  -- bridges from the script blocks to the profiler metric computations
  have htt : Script.totalTasks logs = (uniqueTaskIdsOf logs).card := rfl
  have hai : Script.aiDependencyScore logs =
      calcAiDependency (userTurnsOf logs).length (assistantTurnsOf logs).length := rfl
  have heb : Script.explorationBreadth logs =
      calcExplorationBreadth (conversationLogsOf logs) := rfl
  have hdom : Script.dominantCategory logs =
      calcDominantCategory (conversationLogsOf logs) := rfl
  have havg : Script.avgTurnsPerTask logs =
      calcAvgTurnsPerTask (conversationLogsOf logs) (uniqueTaskIdsOf logs).card := by
    simp only [Script.avgTurnsPerTask, calcAvgTurnsPerTask, Script.conversationLogs,
      conversationLogsOf, Script.totalTasks, Script.uniqueTaskIds, uniqueTaskIdsOf]
    exact (hflip _ _).symm
  have hce : Script.codeEditRatio logs =
      calcCodeEditRatio (codeEditsOf logs).length (assistantTurnsOf logs) := by
    simp only [Script.codeEditRatio, calcCodeEditRatio, Script.assistantTurns, assistantTurnsOf,
      Script.conversationLogs, conversationLogsOf, Script.codeEdits, codeEditsOf]
    exact (hflip _ _).symm
  have har : Script.adoptionRate logs = calcAdoptionRate (adoptionLogsOf logs) := by
    simp only [Script.adoptionRate, calcAdoptionRate, determinedOf, Script.adoptionLogs,
      adoptionLogsOf]
    exact (hflip _ _).symm
  have hsm : Script.selfModificationRate logs =
      calcSelfModificationRate (codeEditsOf logs) (assistantTurnsOf logs) := by
    simp only [Script.selfModificationRate, calcSelfModificationRate, tasksWithAiCodeOf,
      Script.assistantTurns, assistantTurnsOf, Script.conversationLogs, conversationLogsOf,
      Script.codeEdits, codeEditsOf]
    exact (hflip _ _).symm
  have hdf : Script.debuggingFrequency logs =
      calcDebuggingFrequency (conversationLogsOf logs) := by
    simp only [Script.debuggingFrequency, calcDebuggingFrequency, Script.conversationLogs,
      conversationLogsOf]
    exact (hflip _ _).symm
  have hsc : Script.styleScores logs = styleScores (styleMetricsOf logs) := by
    simp only [Script.styleScores, styleScores, styleMetricsOf, scoreDependent,
      scoreExploratory, scoreOptimizer, scoreDebugger, scoreBalanced, sigmoid, midness,
      Script.sigmoid, Script.midness]
    rw [hai, havg, hce, har, hsm, hdf, heb, hdom]
  -- the override path is unreachable
  have hcer := calcCodeEditRatio_range (codeEditsOf logs).length (assistantTurnsOf logs)
  have hsmr := calcSelfModificationRate_range (codeEditsOf logs) (assistantTurnsOf logs)
  have harn := calcAdoptionRate_nonneg (adoptionLogsOf logs)
  have hb30 : (0.3 : ℝ) < max (scoreDependent (styleMetricsOf logs))
      (max (scoreExploratory (styleMetricsOf logs))
        (max (scoreOptimizer (styleMetricsOf logs))
          (max (scoreDebugger (styleMetricsOf logs)) (scoreBalanced (styleMetricsOf logs))))) :=
    max5_ge_03 (styleMetricsOf logs) hcer.1 hcer.2 hsmr.1 hsmr.2 harn
  have h0 : (0 : ℝ) < max (scoreDependent (styleMetricsOf logs))
      (max (scoreExploratory (styleMetricsOf logs))
        (max (scoreOptimizer (styleMetricsOf logs))
          (max (scoreDebugger (styleMetricsOf logs)) (scoreBalanced (styleMetricsOf logs))))) :=
    lt_trans (by norm_num) hb30
  have hpick : pickBest (styleScores (styleMetricsOf logs)) =
      (specSelect (scoreDependent (styleMetricsOf logs)) (scoreExploratory (styleMetricsOf logs))
        (scoreOptimizer (styleMetricsOf logs)) (scoreDebugger (styleMetricsOf logs))
        (scoreBalanced (styleMetricsOf logs)),
       max (scoreDependent (styleMetricsOf logs))
        (max (scoreExploratory (styleMetricsOf logs))
          (max (scoreOptimizer (styleMetricsOf logs))
            (max (scoreDebugger (styleMetricsOf logs)) (scoreBalanced (styleMetricsOf logs)))))) :=
    pickBest5 _ _ _ _ _ _ rfl h0
  have hnb : ¬ (pickBest (styleScores (styleMetricsOf logs))).2 < 0.3 := by
    rw [hpick]
    exact not_lt.mpr (le_of_lt hb30)
  have htr : Script.timeRange logs =
      ((sortAsc ((logs.map (fun l => l.ts)).filter (fun s => !(s == "")))).headD "",
       (sortAsc ((logs.map (fun l => l.ts)).filter (fun s => !(s == "")))).getLastD "") := rfl
  simp only [styleMetricsOf] at hnb
  simp only [StudentProfiler.generate, Script.generateStudentProfile, inferLearningStyle,
    styleMetricsOf, hsc, htt, hai, havg, hce, har, hsm, hdf, heb, hdom, htr]
  rw [if_neg hnb, if_neg hnb]

/-! ### Numeric bounds on the exponential, for evaluating the empty-log profile -/

theorem exp_three_eq : Real.exp 3 = Real.exp 1 ^ 3 := by
  rw [← Real.exp_nat_mul]
  norm_num

theorem exp_thirteen_eq : Real.exp 13 = Real.exp 1 ^ 13 := by
  rw [← Real.exp_nat_mul]
  norm_num

theorem exp_three_gt : (20.085 : ℝ) < Real.exp 3 := by
  rw [exp_three_eq]
  calc (20.085 : ℝ) < 2.7182818283 ^ 3 := by norm_num
    _ < Real.exp 1 ^ 3 := by
        apply pow_lt_pow_left Real.exp_one_gt_d9 (by norm_num)
        norm_num

theorem exp_three_lt : Real.exp 3 < 20.0856 := by
  rw [exp_three_eq]
  calc Real.exp 1 ^ 3 < 2.7182818286 ^ 3 := by
        apply pow_lt_pow_left Real.exp_one_lt_d9 (le_of_lt (Real.exp_pos 1))
        norm_num
    _ < 20.0856 := by norm_num

theorem exp_four_gt : (54 : ℝ) < Real.exp 4 := by
  have h4 : Real.exp 4 = Real.exp 3 * Real.exp 1 := by
    rw [← Real.exp_add]
    norm_num
  rw [h4]
  nlinarith [exp_three_gt, Real.exp_one_gt_d9]

theorem exp_thirteen_gt : (360000 : ℝ) < Real.exp 13 := by
  rw [exp_thirteen_eq]
  calc (360000 : ℝ) < 2.7182818283 ^ 13 := by norm_num
    _ < Real.exp 1 ^ 13 := by
        apply pow_lt_pow_left Real.exp_one_gt_d9 (by norm_num)
        norm_num

theorem exp_thirteen_lt : Real.exp 13 < 490000 := by
  rw [exp_thirteen_eq]
  calc Real.exp 1 ^ 13 < 2.7182818286 ^ 13 := by
        apply pow_lt_pow_left Real.exp_one_lt_d9 (le_of_lt (Real.exp_pos 1))
        norm_num
    _ < 490000 := by norm_num

theorem exp_sixtyfivetenths_gt : (600 : ℝ) < Real.exp 6.5 := by
  have hsq : Real.exp 6.5 * Real.exp 6.5 = Real.exp 13 := by
    rw [← Real.exp_add]
    norm_num
  have h2 : (600 : ℝ) ^ 2 < Real.exp 6.5 ^ 2 := by
    rw [pow_two, pow_two, hsq]
    nlinarith [exp_thirteen_gt]
  exact lt_of_pow_lt_pow_left 2 (le_of_lt (Real.exp_pos 6.5)) h2

theorem exp_sixtyfivetenths_lt : Real.exp 6.5 < 700 := by
  have hsq : Real.exp 6.5 * Real.exp 6.5 = Real.exp 13 := by
    rw [← Real.exp_add]
    norm_num
  have h2 : Real.exp 6.5 ^ 2 < (700 : ℝ) ^ 2 := by
    rw [pow_two, pow_two, hsq]
    nlinarith [exp_thirteen_lt]
  exact lt_of_pow_lt_pow_left 2 (by norm_num) h2

/-- Concrete evaluation of the descending sort on a five-score list shaped
like the empty-log score list. -/
theorem sortDesc5_eval (a b c : ℝ) (hab : b ≤ a) (hcb : c < b) (hc0 : 0 < c) (hb0 : 0 < b) :
    sortDesc [a, c, 0, b, 0] = [a, b, c, 0, 0] := by
  have i0 : List.orderedInsert (fun x y : ℝ => x ≥ y) b [0] = [b, 0] := by
    simp only [List.orderedInsert]
    rw [if_pos (le_of_lt hb0)]
  have i1 : List.orderedInsert (fun x y : ℝ => x ≥ y) 0 [b, 0] = [b, 0, 0] := by
    simp only [List.orderedInsert]
    rw [if_neg (not_le.mpr hb0), if_pos (le_refl (0 : ℝ))]
  have i2 : List.orderedInsert (fun x y : ℝ => x ≥ y) c [b, 0, 0] = [b, c, 0, 0] := by
    simp only [List.orderedInsert]
    rw [if_neg (not_le.mpr hcb), if_pos (le_of_lt hc0)]
  have i3 : List.orderedInsert (fun x y : ℝ => x ≥ y) a [b, c, 0, 0] = [a, b, c, 0, 0] := by
    simp only [List.orderedInsert]
    rw [if_pos hab]
  unfold sortDesc
  simp only [List.insertionSort, List.orderedInsert_nil]
  rw [i0, i1, i2, i3]

set_option maxHeartbeats 2000000 in
/-- Evaluation of the style inference at the all-zero metric record: the
Dependent score `0.4·sigmoid(0, 0.65, 10) + 0.6 ≈ 0.6006` wins, the runner-up
is the Debugger score `0.2·sigmoid(0, 3, 1) ≈ 0.0095`, and the rounded
confidence is `0.597`. -/
theorem inferLearningStyle_sampleMetrics :
    inferLearningStyle sampleMetrics = (LearningStyle.Dependent, 0.597) := by
  have eD : scoreDependent sampleMetrics = 1 / (1 + Real.exp 6.5) * 0.4 + 0.6 := by
    simp only [scoreDependent, sampleMetrics, sigmoid]
    norm_num
    ring
  have eE : scoreExploratory sampleMetrics = 1 / (1 + Real.exp 4) * 0.3 := by
    simp only [scoreExploratory, sampleMetrics, sigmoid]
    norm_num
  have eO : scoreOptimizer sampleMetrics = 0 := by
    simp only [scoreOptimizer, sampleMetrics]
    norm_num
  have eDb : scoreDebugger sampleMetrics = 1 / (1 + Real.exp 3) * 0.2 := by
    simp only [scoreDebugger, sampleMetrics, sigmoid]
    rw [if_neg (show ¬ (none : Option TaskCategory) = some TaskCategory.debugging by simp)]
    norm_num
  have eB : scoreBalanced sampleMetrics = 0 := by
    simp only [scoreBalanced, sampleMetrics, midness]
    rw [show |(0 : ℝ) - 0.5| = 0.5 by rw [abs_of_nonpos] <;> norm_num]
    norm_num
  have hp65 : (0 : ℝ) < 1 / (1 + Real.exp 6.5) := by positivity
  have hσ65u : (1 : ℝ) / (1 + Real.exp 6.5) < 1 / 601 := by
    apply one_div_lt_one_div_of_lt (by norm_num)
    linarith [exp_sixtyfivetenths_gt]
  have hσ65l : (1 : ℝ) / 701 < 1 / (1 + Real.exp 6.5) := by
    apply one_div_lt_one_div_of_lt (by positivity)
    linarith [exp_sixtyfivetenths_lt]
  have hσ3u : (1 : ℝ) / (1 + Real.exp 3) < 1 / 21.085 := by
    apply one_div_lt_one_div_of_lt (by norm_num)
    linarith [exp_three_gt]
  have hσ3l : (1 : ℝ) / 21.0856 < 1 / (1 + Real.exp 3) := by
    apply one_div_lt_one_div_of_lt (by positivity)
    linarith [exp_three_lt]
  have hσ4u : (1 : ℝ) / (1 + Real.exp 4) < 1 / 55 := by
    apply one_div_lt_one_div_of_lt (by norm_num)
    linarith [exp_four_gt]
  have hp4 : (0 : ℝ) < 1 / (1 + Real.exp 4) := by positivity
  have hp3 : (0 : ℝ) < 1 / (1 + Real.exp 3) := by positivity
  have hσ3u2 : (1 : ℝ) / (1 + Real.exp 3) < 1 / 21 := by
    apply one_div_lt_one_div_of_lt (by norm_num)
    linarith [exp_three_gt]
  -- named score values
  have hD_lb : (0.6 : ℝ) < 1 / (1 + Real.exp 6.5) * 0.4 + 0.6 := by nlinarith
  have hD_ub : 1 / (1 + Real.exp 6.5) * 0.4 + 0.6 < 1 := by nlinarith
  have hE_pos : (0 : ℝ) < 1 / (1 + Real.exp 4) * 0.3 := by positivity
  have hE_ub : 1 / (1 + Real.exp 4) * 0.3 < 0.006 := by nlinarith
  have hDb_pos : (0 : ℝ) < 1 / (1 + Real.exp 3) * 0.2 := by positivity
  have hDb_ub : 1 / (1 + Real.exp 3) * 0.2 < 0.0096 := by nlinarith
  have hEDb : 1 / (1 + Real.exp 4) * 0.3 < 1 / (1 + Real.exp 3) * 0.2 := by
    rw [show (1 : ℝ) / (1 + Real.exp 4) * 0.3 = 0.3 / (1 + Real.exp 4) by ring,
      show (1 : ℝ) / (1 + Real.exp 3) * 0.2 = 0.2 / (1 + Real.exp 3) by ring,
      div_lt_div_iff (by positivity) (by positivity)]
    nlinarith [exp_four_gt, exp_three_lt]
  have hDbD : 1 / (1 + Real.exp 3) * 0.2 ≤ 1 / (1 + Real.exp 6.5) * 0.4 + 0.6 := by nlinarith
  -- the selection loop picks (Dependent, scoreDependent)
  have hle : ∀ q ∈ [(LearningStyle.Dependent, 1 / (1 + Real.exp 6.5) * 0.4 + 0.6),
      (LearningStyle.Exploratory, 1 / (1 + Real.exp 4) * 0.3),
      (LearningStyle.Optimizer, (0 : ℝ)),
      (LearningStyle.Debugger, 1 / (1 + Real.exp 3) * 0.2),
      (LearningStyle.Balanced, (0 : ℝ))],
      q.2 ≤ 1 / (1 + Real.exp 6.5) * 0.4 + 0.6 := by
    intro q hq
    simp only [List.mem_cons, List.not_mem_nil, or_false] at hq
    rcases hq with rfl | rfl | rfl | rfl | rfl
    · exact le_refl _
    · show 1 / (1 + Real.exp 4) * 0.3 ≤ 1 / (1 + Real.exp 6.5) * 0.4 + 0.6
      linarith
    · show (0 : ℝ) ≤ 1 / (1 + Real.exp 6.5) * 0.4 + 0.6
      linarith
    · exact hDbD
    · show (0 : ℝ) ≤ 1 / (1 + Real.exp 6.5) * 0.4 + 0.6
      linarith
  have hpb : pickBest [(LearningStyle.Dependent, 1 / (1 + Real.exp 6.5) * 0.4 + 0.6),
      (LearningStyle.Exploratory, 1 / (1 + Real.exp 4) * 0.3),
      (LearningStyle.Optimizer, (0 : ℝ)),
      (LearningStyle.Debugger, 1 / (1 + Real.exp 3) * 0.2),
      (LearningStyle.Balanced, (0 : ℝ))] =
      (LearningStyle.Dependent, 1 / (1 + Real.exp 6.5) * 0.4 + 0.6) :=
    foldl_pickStep_find _ _ _ _
      (show ((LearningStyle.Balanced, (0 : ℝ)) : LearningStyle × ℝ).2 <
          1 / (1 + Real.exp 6.5) * 0.4 + 0.6 by
        show (0 : ℝ) < 1 / (1 + Real.exp 6.5) * 0.4 + 0.6
        linarith) hle
      (List.find?_cons_of_pos _ (by simp))
  have hsort := sortDesc5_eval (1 / (1 + Real.exp 6.5) * 0.4 + 0.6)
    (1 / (1 + Real.exp 3) * 0.2) (1 / (1 + Real.exp 4) * 0.3)
    hDbD hEDb hE_pos hDb_pos
  simp only [inferLearningStyle, styleScores]
  rw [eD, eE, eO, eDb, eB, hpb]
  simp only [List.map_cons, List.map_nil]
  rw [hsort]
  have hlen : 1 < ([1 / (1 + Real.exp 6.5) * 0.4 + 0.6, 1 / (1 + Real.exp 3) * 0.2,
      1 / (1 + Real.exp 4) * 0.3, (0 : ℝ), (0 : ℝ)] : List ℝ).length := by simp
  rw [if_pos hlen]
  have hnlt : ¬ ((1 / (1 + Real.exp 6.5) * 0.4 + 0.6, LearningStyle.Dependent).1 < (0.3 : ℝ)) := by
    dsimp only
    nlinarith
  dsimp only [List.headD, List.drop]
  rw [if_neg (show ¬ ((1 : ℝ) / (1 + Real.exp 6.5) * 0.4 + 0.6 < 0.3) by nlinarith)]
  have hmin : min ((1 / (1 + Real.exp 6.5) * 0.4 + 0.6) * 0.6 +
      ((1 / (1 + Real.exp 6.5) * 0.4 + 0.6) - 1 / (1 + Real.exp 3) * 0.2) * 0.4) 1 =
      (1 / (1 + Real.exp 6.5) * 0.4 + 0.6) * 0.6 +
      ((1 / (1 + Real.exp 6.5) * 0.4 + 0.6) - 1 / (1 + Real.exp 3) * 0.2) * 0.4 := by
    apply min_eq_left
    nlinarith
  rw [hmin]
  have hX_lb : (0.5965 : ℝ) ≤ (1 / (1 + Real.exp 6.5) * 0.4 + 0.6) * 0.6 +
      ((1 / (1 + Real.exp 6.5) * 0.4 + 0.6) - 1 / (1 + Real.exp 3) * 0.2) * 0.4 := by
    nlinarith
  have hX_ub : (1 / (1 + Real.exp 6.5) * 0.4 + 0.6) * 0.6 +
      ((1 / (1 + Real.exp 6.5) * 0.4 + 0.6) - 1 / (1 + Real.exp 3) * 0.2) * 0.4 < 0.5975 := by
    nlinarith
  have hround : round3 ((1 / (1 + Real.exp 6.5) * 0.4 + 0.6) * 0.6 +
      ((1 / (1 + Real.exp 6.5) * 0.4 + 0.6) - 1 / (1 + Real.exp 3) * 0.2) * 0.4) = 0.597 := by
    unfold round3
    have hfl : ⌊((1 / (1 + Real.exp 6.5) * 0.4 + 0.6) * 0.6 +
        ((1 / (1 + Real.exp 6.5) * 0.4 + 0.6) - 1 / (1 + Real.exp 3) * 0.2) * 0.4) * 1000 +
        (1 : ℝ) / 2⌋ = 597 := by
      rw [Int.floor_eq_iff]
      constructor
      · push_cast
        nlinarith
      · push_cast
        nlinarith
    rw [hfl]
    norm_num
  rw [hround]

theorem styleMetricsOf_nil : styleMetricsOf [] = sampleMetrics := by
  simp [styleMetricsOf, sampleMetrics, calcAiDependency, calcCodeEditRatio, calcAdoptionRate,
    calcSelfModificationRate, calcDebuggingFrequency, calcExplorationBreadth,
    calcAvgTurnsPerTask, calcDominantCategory, conversationLogsOf, userTurnsOf,
    assistantTurnsOf, codeEditsOf, adoptionLogsOf, uniqueTaskIdsOf, determinedOf,
    tasksWithAiCodeOf, usedCategoriesOf, dedupKeys]

/-- Full evaluation of the profile generator on the empty log. -/
theorem generate_nil_eval :
    StudentProfiler.generate [] =
      ⟨0, 0, 0, 0, 0, 0, 0, 0, 0, none, LearningStyle.Dependent, 0.597, ("", "")⟩ := by
  simp only [StudentProfiler.generate, styleMetricsOf_nil]
  rw [inferLearningStyle_sampleMetrics]
  simp [sampleMetrics, uniqueTaskIdsOf, sortAsc, List.insertionSort]

/-- C3 (amended): on the empty event log the profile generator totally
evaluates (it cannot throw) to a profile whose six metrics are all 0 and whose
dominantCategory is `unknown` (`none`); its learningStyle, however, is
`Dependent` with styleConfidence `0.597`, not `Balanced` at confidence 0: at
all-zero metrics the Dependent score is `0.4·sigmoid(0, 0.65, 10) + 0.6 ≈
0.6006`, which wins the selection and exceeds the 0.3 fallback threshold. -/
theorem C3_empty_log_profile :
    StudentProfiler.generate [] =
      ⟨0, 0, 0, 0, 0, 0, 0, 0, 0, none, LearningStyle.Dependent, 0.597, ("", "")⟩ :=
  generate_nil_eval

/-- C3 counterexample: the claim as stated is false at the empty log — the
style is not `Balanced` and the confidence is not 0. -/
theorem C3_counterexample :
    ¬ ((StudentProfiler.generate []).learningStyle = LearningStyle.Balanced ∧
       (StudentProfiler.generate []).styleConfidence = 0) := by
  rw [generate_nil_eval]
  norm_num
